import Mathlib

/-!
Verification of the rust-libnoise coherent-noise library.

Shallow embedding conventions:
* `f64` values are modelled as real numbers (`ℝ`); `i32` values as `ℤ`.
* A noise module is represented by its `get_value` function
  (`ℝ → ℝ → ℝ → ℝ`), mirroring the `Module` trait; composite nodes are
  structures holding their child modules and parameters, exactly as the
  Rust structs do.
* A Rust `panic!` is modelled by returning `none` from an
  `Option`-valued function; `some` is normal completion.
* The low-level `value_noise3d` primitive lives outside the sources under
  verification, so functions that consume it take it as an explicit
  argument of type `ℤ → ℤ → ℤ → ℤ → α`.
* Casting a (finite, in-range) `f64` to `i32` truncates toward zero: for
  `v > 0` this is `⌊v⌋`, and for `v ≤ 0` the code always casts `v - 1`,
  whose truncation is `⌈v - 1⌉ = ⌈v⌉ - 1`.
-/

namespace Libnoise

/-- A noise module, shallowly embedded as its `get_value` function
(the single method of the `Module` trait in `module/mod.rs`). -/
def NoiseModule : Type := ℝ → ℝ → ℝ → ℝ

/-- `util::linear_interp`: linear interpolation between two values. -/
def linear_interp (n0 n1 a : ℝ) : ℝ :=
  ((1 - a) * n0) + (a * n1)

/-- `util::cubic_interp`: cubic interpolation between two values bound
between two other values. -/
def cubic_interp (n0 n1 n2 n3 a : ℝ) : ℝ :=
  let p := (n3 - n2) - (n0 - n1)
  let q := (n0 - n1) - p
  let r := n2 - n0
  let s := n1
  p * a * a * a + q * a * a + r * a + s

/-- `util::scurve3`: maps a value onto a cubic S-curve. -/
def scurve3 (a : ℝ) : ℝ :=
  a * a * (3 - 2 * a)

/-- `util::clamp` instantiated at `isize` (modelled by `ℤ`), as used by
the `Curve` and `Terrace` index computations. -/
def clampInt (value lower_bound upper_bound : ℤ) : ℤ :=
  if value < lower_bound then lower_bound
  else if value > upper_bound then upper_bound
  else value

/-- `Invert::get_value` (`module/invert.rs`): negates the source value. -/
def Invert.get_value (module : NoiseModule) : NoiseModule :=
  fun x y z =>
    let value := module x y z;
    -value

/-- `Add::get_value` (`module/add.rs`): sum of the two source values. -/
def Add.get_value (module1 module2 : NoiseModule) : NoiseModule :=
  fun x y z => module1 x y z + module2 x y z

/-- `Exponent::get_value` (`module/exponent.rs`): normalizes the source
value, takes the absolute value, raises it to `exponent` (Rust `powf`,
modelled by `Real.rpow`) and rescales. -/
noncomputable def Exponent.get_value (exponent : ℝ) (module : NoiseModule) : NoiseModule :=
  fun x y z =>
    let value := module x y z
    |(value + 1) / 2| ^ exponent * 2 - 1

/-- The `Clamp` noise module state (`module/clamp.rs`). -/
structure Clamp where
  module : NoiseModule
  lower_bound : ℝ
  upper_bound : ℝ

/-- `Clamp::get_value`: clamps the source value to the bounds. -/
noncomputable def Clamp.get_value (c : Clamp) (x y z : ℝ) : ℝ :=
  let value := c.module x y z
  if value < c.lower_bound then c.lower_bound
  else if value > c.upper_bound then c.upper_bound
  else value

/-- `Clamp::set_bounds`: panics (`none`) when the lower bound exceeds the
upper bound, otherwise stores the bounds. -/
noncomputable def Clamp.set_bounds (c : Clamp) (lower_bound upper_bound : ℝ) : Option Clamp :=
  if lower_bound > upper_bound then none
  else some { c with lower_bound := lower_bound, upper_bound := upper_bound }

/-- The `Cylinders` noise module state (`module/cylinders.rs`). -/
structure Cylinders where
  frequency : ℝ

/-- `Cylinders::get_value`: distance to the nearest concentric cylinder
around the `y` axis, rescaled. -/
noncomputable def Cylinders.get_value (c : Cylinders) (x _y z : ℝ) : ℝ :=
  let x := x * c.frequency
  let z := z * c.frequency
  let dist_from_centre := Real.sqrt (x * x + z * z)
  let dist_from_smaller_sphere := dist_from_centre - (⌊dist_from_centre⌋ : ℝ)
  let dist_from_larger_sphere := 1 - dist_from_smaller_sphere
  let nearest_dist := min dist_from_smaller_sphere dist_from_larger_sphere
  1 - nearest_dist * 4

/-- The `Spheres` noise module state (`module/spheres.rs`). -/
structure Spheres where
  frequency : ℝ

/-- `Spheres::get_value`: distance to the nearest concentric sphere,
rescaled. -/
noncomputable def Spheres.get_value (s : Spheres) (x y z : ℝ) : ℝ :=
  let x := x * s.frequency
  let y := y * s.frequency
  let z := z * s.frequency
  let dist_from_centre := Real.sqrt (x * x + y * y + z * z)
  let dist_from_smaller_sphere := dist_from_centre - (⌊dist_from_centre⌋ : ℝ)
  let dist_from_larger_sphere := 1 - dist_from_smaller_sphere
  let nearest_dist := min dist_from_smaller_sphere dist_from_larger_sphere
  1 - nearest_dist * 4

/-- `Constant::get_value` (`module/constant.rs`): always returns the
stored value. -/
def Constant.get_value (value : ℝ) : NoiseModule :=
  fun _ _ _ => value

/-- A 3x3 matrix of doubles, the `[[f64; 3]; 3]` rotation matrix of
`RotatePoint`. -/
structure Mat3 where
  m00 : ℝ
  m01 : ℝ
  m02 : ℝ
  m10 : ℝ
  m11 : ℝ
  m12 : ℝ
  m20 : ℝ
  m21 : ℝ
  m22 : ℝ

/-- `f64::to_radians`: degrees to radians. -/
noncomputable def to_radians (d : ℝ) : ℝ :=
  d * (Real.pi / 180)

/-- The `RotatePoint` noise module state (`module/rotate_point.rs`):
three rotation angles in degrees (the Rust field is the tuple
`angles: (f64, f64, f64)`) and the derived rotation matrix. -/
structure RotatePoint where
  module : NoiseModule
  angles : ℝ × ℝ × ℝ
  matrix : Mat3

/-- `RotatePoint::update_matrix`: recomputes the rotation matrix from the
current angle triple. -/
noncomputable def RotatePoint.update_matrix (s : RotatePoint) : RotatePoint :=
  let x_sin := Real.sin (to_radians s.angles.1);
  let x_cos := Real.cos (to_radians s.angles.1);
  let y_sin := Real.sin (to_radians s.angles.2.1);
  let y_cos := Real.cos (to_radians s.angles.2.1);
  let z_sin := Real.sin (to_radians s.angles.2.2);
  let z_cos := Real.cos (to_radians s.angles.2.2);
  { s with matrix :=
    { m00 := y_sin * x_sin * z_sin + y_cos * z_cos
      m01 := x_cos * z_sin
      m02 := y_sin * z_cos - y_cos * x_sin * z_sin
      m10 := y_sin * x_sin * z_cos - y_cos * z_sin
      m11 := x_cos * z_cos
      m12 := -y_cos * x_sin * z_cos - y_sin * z_sin
      m20 := -y_sin * x_cos
      m21 := x_sin
      m22 := y_cos * x_cos } }

/-- `RotatePoint::new`: default angles `(0, 0, 0)`, matrix initialised to
zero and then recomputed. -/
noncomputable def RotatePoint.new (module : NoiseModule) : RotatePoint :=
  RotatePoint.update_matrix
    { module := module
      angles := (0, 0, 0)
      matrix := ⟨0, 0, 0, 0, 0, 0, 0, 0, 0⟩ }

/-- `RotatePoint::x_angle`: returns `self.angles.0`. -/
def RotatePoint.x_angle (s : RotatePoint) : ℝ :=
  s.angles.1

/-- `RotatePoint::y_angle`: returns `self.angles.1`. -/
def RotatePoint.y_angle (s : RotatePoint) : ℝ :=
  s.angles.2.1

/-- `RotatePoint::z_angle`: returns `self.angles.2`. -/
def RotatePoint.z_angle (s : RotatePoint) : ℝ :=
  s.angles.2.2

/-- `RotatePoint::set_x_angle`: the source executes `self.angles.0 = x`
and then `self.update_matrix()`. -/
noncomputable def RotatePoint.set_x_angle (s : RotatePoint) (x : ℝ) : RotatePoint :=
  RotatePoint.update_matrix { s with angles := (x, s.angles.2.1, s.angles.2.2) }

/-- `RotatePoint::set_y_angle`: the source executes `self.angles.0 = y`
(writing the FIRST tuple component, exactly as written in
`rotate_point.rs` line 129) and then `self.update_matrix()`. -/
noncomputable def RotatePoint.set_y_angle (s : RotatePoint) (y : ℝ) : RotatePoint :=
  RotatePoint.update_matrix { s with angles := (y, s.angles.2.1, s.angles.2.2) }

/-- `RotatePoint::set_z_angle`: the source executes `self.angles.0 = z`
(again writing the FIRST tuple component, `rotate_point.rs` line 139)
and then `self.update_matrix()`. -/
noncomputable def RotatePoint.set_z_angle (s : RotatePoint) (z : ℝ) : RotatePoint :=
  RotatePoint.update_matrix { s with angles := (z, s.angles.2.1, s.angles.2.2) }

/-- `NoiseQuality` (`noisegen.rs`): the interpolation-quality enum. -/
inductive NoiseQuality where
  | fast
  | standard
  | best

/-- `PERLIN_MAX_OCTAVE` (`module/perlin.rs`). -/
def PERLIN_MAX_OCTAVE : ℤ := 30

/-- `BILLOW_MAX_OCTAVE` (`module/billow.rs`). -/
def BILLOW_MAX_OCTAVE : ℤ := 30

/-- `RIDGED_MAX_OCTAVE` (`module/ridged_multi.rs`). -/
def RIDGED_MAX_OCTAVE : ℤ := 30

/-- The `Perlin` noise module state (`module/perlin.rs`). -/
structure Perlin where
  frequency : ℝ
  lacunarity : ℝ
  quality : NoiseQuality
  octave_count : ℤ
  persistence : ℝ
  seed : ℤ

/-- `Perlin::set_octave_count`: panics (`none`) outside `[1, 30]`,
otherwise stores the count. -/
def Perlin.set_octave_count (p : Perlin) (octave_count : ℤ) : Option Perlin :=
  if octave_count < 1 ∨ octave_count > PERLIN_MAX_OCTAVE then none
  else some { p with octave_count := octave_count }

/-- The `Billow` noise module state (`module/billow.rs`). -/
structure Billow where
  frequency : ℝ
  lacunarity : ℝ
  quality : NoiseQuality
  octave_count : ℤ
  persistence : ℝ
  seed : ℤ

/-- `Billow::set_octave_count`: panics (`none`) outside `[1, 30]`,
otherwise stores the count. -/
def Billow.set_octave_count (b : Billow) (octave_count : ℤ) : Option Billow :=
  if octave_count < 1 ∨ octave_count > BILLOW_MAX_OCTAVE then none
  else some { b with octave_count := octave_count }

/-- The `RidgedMulti` noise module state (`module/ridged_multi.rs`);
the spectral-weight table is a derived table of length 30. -/
structure RidgedMulti where
  frequency : ℝ
  lacunarity : ℝ
  quality : NoiseQuality
  octave_count : ℤ
  seed : ℤ
  spectral_weights : Fin 30 → ℝ

/-- `RidgedMulti::set_octave_count`: panics (`none`) outside `[1, 30]`,
otherwise stores the count. -/
def RidgedMulti.set_octave_count (r : RidgedMulti) (octave_count : ℤ) : Option RidgedMulti :=
  if octave_count < 1 ∨ octave_count > RIDGED_MAX_OCTAVE then none
  else some { r with octave_count := octave_count }

/-- The `Turbulence` noise module state (`module/turbulence.rs`):
a source module plus three internally owned `Perlin` distortion
generators. -/
structure Turbulence where
  power : ℝ
  msource : NoiseModule
  x_distort : Perlin
  y_distort : Perlin
  z_distort : Perlin

/-- `Turbulence::set_roughness`: forwards the argument as the octave
count of all three internal `Perlin` generators (panicking, i.e.
`none`, as soon as the first forwarded call rejects it). -/
def Turbulence.set_roughness (t : Turbulence) (roughness : ℤ) : Option Turbulence :=
  (t.x_distort.set_octave_count roughness).bind fun x_distort =>
    (t.y_distort.set_octave_count roughness).bind fun y_distort =>
      (t.z_distort.set_octave_count roughness).map fun z_distort =>
        { t with x_distort := x_distort, y_distort := y_distort, z_distort := z_distort }

/-- Default edge-falloff value for `Select` (`module/select.rs`). -/
def DEFAULT_SELECT_EDGE_FALLOFF : ℝ := 0

/-- Default lower bound of the selection range for `Select`. -/
def DEFAULT_SELECT_LOWER_BOUND : ℝ := -1

/-- Default upper bound of the selection range for `Select`. -/
def DEFAULT_SELECT_UPPER_BOUND : ℝ := 1

/-- The `Select` noise module state (`module/select.rs`). -/
structure Select where
  module1 : NoiseModule
  module2 : NoiseModule
  mcontrol : NoiseModule
  edge_falloff : ℝ
  lower_bound : ℝ
  upper_bound : ℝ

/-- `Select::new`: default parameters around the three children. -/
def Select.new (module1 module2 control : NoiseModule) : Select :=
  { module1 := module1
    module2 := module2
    mcontrol := control
    edge_falloff := DEFAULT_SELECT_EDGE_FALLOFF
    lower_bound := DEFAULT_SELECT_LOWER_BOUND
    upper_bound := DEFAULT_SELECT_UPPER_BOUND }

/-- `Select::clamp_falloff`: caps the stored falloff at half the bound
width so the two transition bands cannot overlap. -/
noncomputable def Select.clamp_falloff (s : Select) : Select :=
  let bound_size := s.upper_bound - s.lower_bound;
  if bound_size / 2 < s.edge_falloff then { s with edge_falloff := bound_size / 2 }
  else s

/-- `Select::set_edge_falloff`: stores the falloff, then clamps it. -/
noncomputable def Select.set_edge_falloff (s : Select) (edge_falloff : ℝ) : Select :=
  Select.clamp_falloff { s with edge_falloff := edge_falloff }

/-- `Select::set_bounds`: panics (`none`) when the lower bound exceeds
the upper bound, otherwise stores the bounds and clamps the falloff. -/
noncomputable def Select.set_bounds (s : Select) (lower_bound upper_bound : ℝ) : Option Select :=
  if lower_bound > upper_bound then none
  else some (Select.clamp_falloff { s with lower_bound := lower_bound, upper_bound := upper_bound })

/-- `Select::get_value` (`module/select.rs` lines 222-269). -/
noncomputable def Select.get_value (s : Select) (x y z : ℝ) : ℝ :=
  let control_value := s.mcontrol x y z;
  if s.edge_falloff > 0 then
    if control_value < s.lower_bound - s.edge_falloff then
      s.module1 x y z
    else if control_value < s.lower_bound + s.edge_falloff then
      let lower_curve := s.lower_bound - s.edge_falloff;
      let upper_curve := s.lower_bound + s.edge_falloff;
      let alpha := scurve3 ((control_value - lower_curve) / (upper_curve - lower_curve));
      linear_interp (s.module1 x y z) (s.module2 x y z) alpha
    else if control_value < s.upper_bound - s.edge_falloff then
      s.module2 x y z
    else if control_value < s.upper_bound + s.edge_falloff then
      let lower_curve := s.upper_bound - s.edge_falloff;
      let upper_curve := s.upper_bound + s.edge_falloff;
      let alpha := scurve3 ((control_value - lower_curve) / (upper_curve - lower_curve));
      linear_interp (s.module2 x y z) (s.module1 x y z) alpha
    else
      s.module1 x y z
  else
    if control_value < s.lower_bound ∨ control_value > s.upper_bound then
      s.module1 x y z
    else
      s.module2 x y z

/-- The `Select` states reachable from construction by any sequence of
(successful) `set_edge_falloff` and `set_bounds` calls. -/
inductive SelectReachable : Select → Prop where
  | new_node : ∀ module1 module2 control,
      SelectReachable (Select.new module1 module2 control)
  | falloff_step : ∀ s f, SelectReachable s → SelectReachable (s.set_edge_falloff f)
  | bounds_step : ∀ s l u s2, SelectReachable s → s.set_bounds l u = some s2 →
      SelectReachable s2

/-- A `Curve` control point (`module/curve.rs`): an input value mapping
to an output value. -/
structure ControlPoint where
  input_value : ℝ
  output_value : ℝ

/-- The `Curve` noise module state (`module/curve.rs`); the control
points are kept sorted by ascending `input_value` by
`add_control_point`, which also rejects duplicates. -/
structure Curve where
  module : NoiseModule
  control_points : List ControlPoint

/-- The index `idx_pos` computed by `Curve::get_value`: Rust
`slice::binary_search_by` on a slice sorted strictly by `input_value`
returns `Ok(i)` with the matching index or `Err(i)` with the insertion
index; mapping `Ok(i)` to `i + 1` and `Err(i)` to `i` (as the code
does) yields, in both cases, the number of control points whose
`input_value` is at most the source value. -/
noncomputable def Curve.idx_pos (pts : List ControlPoint) (source_value : ℝ) : ℤ :=
  (pts.countP fun p => decide (p.input_value ≤ source_value) : ℕ)

/-- `Curve::get_value` (`module/curve.rs` lines 117-164): panics
(`none`) with fewer than 4 control points, otherwise locates the four
neighbouring control points (clamping indices at the ends), returns the
nearest boundary output when the clamped middle indices coincide, and
performs cubic interpolation otherwise. -/
noncomputable def Curve.get_value (c : Curve) (x y z : ℝ) : Option ℝ :=
  if c.control_points.length < 4 then none
  else
    let source_value := c.module x y z;
    let idx_pos := Curve.idx_pos c.control_points source_value;
    let idx0 := clampInt (idx_pos - 2) 0 ((c.control_points.length : ℤ) - 1);
    let idx1 := clampInt (idx_pos - 1) 0 ((c.control_points.length : ℤ) - 1);
    let idx2 := clampInt idx_pos 0 ((c.control_points.length : ℤ) - 1);
    let idx3 := clampInt (idx_pos + 1) 0 ((c.control_points.length : ℤ) - 1);
    if idx1 = idx2 then some (c.control_points.getD idx1.toNat ⟨0, 0⟩).output_value
    else
      let input0 := (c.control_points.getD idx1.toNat ⟨0, 0⟩).input_value;
      let input1 := (c.control_points.getD idx2.toNat ⟨0, 0⟩).input_value;
      let alpha := (source_value - input0) / (input1 - input0);
      some (cubic_interp
        (c.control_points.getD idx0.toNat ⟨0, 0⟩).output_value
        (c.control_points.getD idx1.toNat ⟨0, 0⟩).output_value
        (c.control_points.getD idx2.toNat ⟨0, 0⟩).output_value
        (c.control_points.getD idx3.toNat ⟨0, 0⟩).output_value
        alpha)

/-- The `Terrace` noise module state (`module/terrace.rs`); the control
points are kept sorted ascending by `add_control_point`, which also
rejects duplicates. -/
structure Terrace where
  module : NoiseModule
  invert_terraces : Bool
  control_points : List ℝ

/-- The index `idx_pos` computed by `Terrace::get_value`; same
binary-search translation as for `Curve`. -/
noncomputable def Terrace.idx_pos (pts : List ℝ) (source_value : ℝ) : ℤ :=
  (pts.countP fun v => decide (v ≤ source_value) : ℕ)

/-- `Terrace::get_value` (`module/terrace.rs` lines 157-203): panics
(`none`) with fewer than 2 control points, otherwise locates the two
bracketing control points (clamping indices at the ends), returns the
nearest boundary point when the clamped indices coincide, and otherwise
interpolates with a squared (optionally inverted) alpha. -/
noncomputable def Terrace.get_value (t : Terrace) (x y z : ℝ) : Option ℝ :=
  if t.control_points.length < 2 then none
  else
    let source_value := t.module x y z;
    let idx_pos := Terrace.idx_pos t.control_points source_value;
    let idx0 := clampInt (idx_pos - 1) 0 ((t.control_points.length : ℤ) - 1);
    let idx1 := clampInt idx_pos 0 ((t.control_points.length : ℤ) - 1);
    if idx0 = idx1 then some (t.control_points.getD idx1.toNat 0)
    else
      let value0 := t.control_points.getD idx0.toNat 0;
      let value1 := t.control_points.getD idx1.toNat 0;
      let alpha := (source_value - value0) / (value1 - value0);
      let vva := if t.invert_terraces then (value1, value0, 1 - alpha)
        else (value0, value1, alpha);
      let alpha_sq := vva.2.2 * vva.2.2;
      some (linear_interp vva.1 vva.2.1 alpha_sq)

/-- The seed point of one lattice cell together with its squared distance
to the sample point, as computed inside the loop body of
`Voronoi::get_value` (`module/voronoi.rs` lines 198-206): the state
component order is `(dist, x_pos, y_pos, z_pos)`.  The arithmetic is
stated over any linear ordered commutative ring so that it can be
evaluated exactly over `ℤ` and reasoned about over `ℝ`. -/
def voronoiCellPoint {α : Type} [LinearOrderedCommRing α] (noise : ℤ → ℤ → ℤ → ℤ → α)
    (seed : ℤ) (x y z : α) (cell : ℤ × ℤ × ℤ) : α × α × α × α :=
  let x_pos := (cell.1 : α) + noise cell.1 cell.2.1 cell.2.2 seed;
  let y_pos := (cell.2.1 : α) + noise cell.1 cell.2.1 cell.2.2 (seed + 1);
  let z_pos := (cell.2.2 : α) + noise cell.1 cell.2.1 cell.2.2 (seed + 2);
  let x_dist := x_pos - x;
  let y_dist := y_pos - y;
  let z_dist := z_pos - z;
  let dist := x_dist * x_dist + y_dist * y_dist + z_dist * z_dist;
  (dist, x_pos, y_pos, z_pos)

/-- One iteration of the `Voronoi::get_value` search loop
(`module/voronoi.rs` lines 208-215): keep the new seed point exactly
when its squared distance is strictly below the minimum so far. -/
def voronoiStep {α : Type} [LinearOrderedCommRing α] (noise : ℤ → ℤ → ℤ → ℤ → α)
    (seed : ℤ) (x y z : α) (st : α × α × α × α) (cell : ℤ × ℤ × ℤ) : α × α × α × α :=
  let p := voronoiCellPoint noise seed x y z cell;
  if p.1 < st.1 then p else st

/-- The 125 cells visited by the triple loop of `Voronoi::get_value`
(`module/voronoi.rs` lines 195-197), in loop order: `z` slowest, `x`
fastest, offsets `-2..=2` around the centre cell. -/
def voronoiCells (x_int y_int z_int : ℤ) : List (ℤ × ℤ × ℤ) :=
  (List.range 5).flatMap fun dz =>
    (List.range 5).flatMap fun dy =>
      (List.range 5).map fun dx =>
        (x_int - 2 + (dx : ℤ), y_int - 2 + (dy : ℤ), z_int - 2 + (dz : ℤ))

/-- The whole search loop of `Voronoi::get_value`: fold over the 125
cells starting from the sentinel state
`min_dist = 2147483647.0`, candidate `(0, 0, 0)`. -/
def voronoiSearch {α : Type} [LinearOrderedCommRing α] (noise : ℤ → ℤ → ℤ → ℤ → α)
    (seed : ℤ) (x y z : α) (x_int y_int z_int : ℤ) : α × α × α × α :=
  (voronoiCells x_int y_int z_int).foldl (voronoiStep noise seed x y z)
    (2147483647, 0, 0, 0)

/-- The squared Euclidean distance from the sample point `(x, y, z)` to a
candidate position, in the component order used by the recomputation at
`module/voronoi.rs` lines 222-225. -/
def distTo {α : Type} [LinearOrderedCommRing α] (x y z : α) (p : α × α × α) : α :=
  (p.1 - x) * (p.1 - x) + (p.2.1 - y) * (p.2.1 - y) + (p.2.2 - z) * (p.2.2 - z)

/-- The `Voronoi` noise module state (`module/voronoi.rs`). -/
structure Voronoi where
  displacement : ℝ
  enable_distance : Bool
  frequency : ℝ
  seed : ℤ

/-- `Voronoi::get_value` (`module/voronoi.rs` lines 174-236), with the
missing primitive `noisegen::value_noise3d` passed as the `noise`
argument and `consts::SQRT_3` modelled as `Real.sqrt 3`.  The centre
cell indices reproduce the source's casts
`if v > 0.0 { v as i32 } else { (v - 1.0) as i32 }` (truncation toward
zero, hence `⌊v⌋` for positive `v` and `⌈v - 1⌉` otherwise). -/
noncomputable def Voronoi.get_value (v : Voronoi) (noise : ℤ → ℤ → ℤ → ℤ → ℝ)
    (x y z : ℝ) : ℝ :=
  let x := x * v.frequency;
  let y := y * v.frequency;
  let z := z * v.frequency;
  let x_int : ℤ := if x > 0 then ⌊x⌋ else ⌈x - 1⌉;
  let y_int : ℤ := if y > 0 then ⌊y⌋ else ⌈y - 1⌉;
  let z_int : ℤ := if z > 0 then ⌊z⌋ else ⌈z - 1⌉;
  let st := voronoiSearch noise v.seed x y z x_int y_int z_int;
  let value := if v.enable_distance then
      Real.sqrt (distTo x y z st.2) * Real.sqrt 3 - 1
    else 0;
  value + v.displacement * noise ⌊st.2.1⌋ ⌊st.2.2.1⌋ ⌊st.2.2.2⌋ 0

/-- Modelled from the spec: the Voronoi search as §4.5 of the spec
describes it — find, over the 5×5×5 window, the cell whose seed point
minimises the squared Euclidean distance (a sentinel-free minimum,
seeded from the first cell of the window; ties resolved to the earliest
cell, matching "track the minimum"). -/
def voronoiSpecSearch {α : Type} [LinearOrderedCommRing α] (noise : ℤ → ℤ → ℤ → ℤ → α)
    (seed : ℤ) (x y z : α) (x_int y_int z_int : ℤ) : α × α × α × α :=
  match voronoiCells x_int y_int z_int with
  | [] => (0, 0, 0, 0)
  | cell :: rest =>
      rest.foldl (voronoiStep noise seed x y z) (voronoiCellPoint noise seed x y z cell)

/-- Modelled from the spec: `Voronoi::get_value` as claim C3 states it —
"locate the integer lattice cell containing the (frequency-scaled)
point" (`⌊·⌋`), search the 5×5×5 neighborhood for the minimising seed
point, and return `displacement * value_noise(floor(candidate), 0)`
plus `sqrt(min_dist) * sqrt(3) - 1` when `enable_distance` is set. -/
noncomputable def voronoiSpecValue (displacement : ℝ) (enable_distance : Bool)
    (frequency : ℝ) (seed : ℤ) (noise : ℤ → ℤ → ℤ → ℤ → ℝ) (x y z : ℝ) : ℝ :=
  let x := x * frequency;
  let y := y * frequency;
  let z := z * frequency;
  let st := voronoiSpecSearch noise seed x y z ⌊x⌋ ⌊y⌋ ⌊z⌋;
  let value := if enable_distance then Real.sqrt st.1 * Real.sqrt 3 - 1 else 0;
  value + displacement * noise ⌊st.2.1⌋ ⌊st.2.2.1⌋ ⌊st.2.2.2⌋ 0

/-- Modelled from the spec, amended: identical to `voronoiSpecValue`
except that the centre cell is located by the source's truncation rule
(`⌊v⌋` for `v > 0`, else `⌈v - 1⌉` — the containing cell except at
non-positive integer coordinates, where it is the cell below). -/
noncomputable def voronoiSpecValueAmended (displacement : ℝ) (enable_distance : Bool)
    (frequency : ℝ) (seed : ℤ) (noise : ℤ → ℤ → ℤ → ℤ → ℝ) (x y z : ℝ) : ℝ :=
  let x := x * frequency;
  let y := y * frequency;
  let z := z * frequency;
  let x_int : ℤ := if x > 0 then ⌊x⌋ else ⌈x - 1⌉;
  let y_int : ℤ := if y > 0 then ⌊y⌋ else ⌈y - 1⌉;
  let z_int : ℤ := if z > 0 then ⌊z⌋ else ⌈z - 1⌉;
  let st := voronoiSpecSearch noise seed x y z x_int y_int z_int;
  let value := if enable_distance then Real.sqrt st.1 * Real.sqrt 3 - 1 else 0;
  value + displacement * noise ⌊st.2.1⌋ ⌊st.2.2.1⌋ ⌊st.2.2.2⌋ 0

/-- An adversarial but range-respecting (`[-1, 1]`-valued) value-noise
assignment used to separate the code's cell location from the one the
claim describes: every cell's seed point is pushed one unit away from
the origin on each axis, except cell `(2, 0, 0)`, whose seed point is
placed at `(1, 0, 0)`. -/
def exNoise : ℤ → ℤ → ℤ → ℤ → ℤ :=
  fun a b c s =>
    if a = 2 ∧ b = 0 ∧ c = 0 then (if s = 0 then -1 else 0)
    else if 0 ≤ (if s = 0 then a else if s = 1 then b else c) then 1 else -1

/-- The integer counterexample noise, viewed over `ℝ`. -/
noncomputable def exNoiseR : ℤ → ℤ → ℤ → ℤ → ℝ :=
  fun a b c s => ((exNoise a b c s : ℤ) : ℝ)

/-- Componentwise embedding of an integer search state into the reals. -/
def castState (st : ℤ × ℤ × ℤ × ℤ) : ℝ × ℝ × ℝ × ℝ :=
  ((st.1 : ℝ), (st.2.1 : ℝ), (st.2.2.1 : ℝ), (st.2.2.2 : ℝ))

end Libnoise

namespace Libnoise

/-- Helper: the fractional part `d - ⌊d⌋` and its complement bound the
`nearest_dist` computed by `Cylinders` and `Spheres` into `[0, 1]`. -/
theorem nearest_dist_mem_unit (d : ℝ) :
    0 ≤ min (d - (⌊d⌋ : ℝ)) (1 - (d - (⌊d⌋ : ℝ))) ∧
      min (d - (⌊d⌋ : ℝ)) (1 - (d - (⌊d⌋ : ℝ))) ≤ 1 := by
  have h0 : (⌊d⌋ : ℝ) ≤ d := Int.floor_le d
  have h1 : d < (⌊d⌋ : ℝ) + 1 := Int.lt_floor_add_one d
  constructor
  · exact le_min (by linarith) (by linarith)
  · exact le_trans (min_le_left _ _) (by linarith)

/-- C9: for every `Cylinders` node and every `Spheres` node and every input
coordinate, `get_value` lies in the interval `[-3, 1]`: it is
`1 - nearest_dist * 4` with `nearest_dist ∈ [0, 1]`. -/
theorem cylinders_spheres_get_value_range (c : Cylinders) (s : Spheres) (x y z : ℝ) :
    (-3 ≤ c.get_value x y z ∧ c.get_value x y z ≤ 1) ∧
      (-3 ≤ s.get_value x y z ∧ s.get_value x y z ≤ 1) := by
  constructor
  · have h := nearest_dist_mem_unit (Real.sqrt (x * c.frequency * (x * c.frequency)
      + z * c.frequency * (z * c.frequency)))
    unfold Cylinders.get_value
    constructor <;> simp only [] <;> linarith [h.1, h.2]
  · have h := nearest_dist_mem_unit (Real.sqrt (x * s.frequency * (x * s.frequency)
      + y * s.frequency * (y * s.frequency) + z * s.frequency * (z * s.frequency)))
    unfold Spheres.get_value
    constructor <;> simp only [] <;> linarith [h.1, h.2]

/-- C8: double inversion is the identity on evaluation, and `Add`
evaluates to the sum of its two children's evaluations. -/
theorem invert_invert_and_add (m a b : NoiseModule) (x y z : ℝ) :
    Invert.get_value (Invert.get_value m) x y z = m x y z ∧
      Add.get_value a b x y z = a x y z + b x y z := by
  constructor
  · simp [Invert.get_value]
  · rfl

/-- C10: `Exponent::get_value` returns `|(v + 1) / 2| ^ e * 2 - 1` where
`v` is the source value, and the base handed to `powf` is never
negative. -/
theorem exponent_get_value_formula (e : ℝ) (m : NoiseModule) (x y z : ℝ) :
    Exponent.get_value e m x y z = |(m x y z + 1) / 2| ^ e * 2 - 1 ∧
      0 ≤ |(m x y z + 1) / 2| :=
  ⟨rfl, abs_nonneg _⟩

/-- C7: whenever its bounds are ordered, a `Clamp` node's output lies in
`[lower_bound, upper_bound]` whatever the source value is; and
`set_bounds` rejects (panics on) reversed bounds. -/
theorem clamp_get_value_in_bounds (c : Clamp) (x y z : ℝ)
    (h : c.lower_bound ≤ c.upper_bound) :
    (c.lower_bound ≤ c.get_value x y z ∧ c.get_value x y z ≤ c.upper_bound) ∧
      ∀ l u : ℝ, l > u → c.set_bounds l u = none := by
  refine ⟨?_, fun l u hlu => if_pos hlu⟩
  dsimp only [Clamp.get_value]
  split_ifs with h1 h2
  · exact ⟨le_refl _, h⟩
  · exact ⟨h, le_refl _⟩
  · exact ⟨not_lt.mp h1, not_lt.mp h2⟩

/-- Witness for C7 at a concrete clamp node: bounds `[-1, 1]`, source
constantly `2`. -/
theorem clamp_get_value_in_bounds_witness :
    ((Clamp.mk (fun _ _ _ => (2 : ℝ)) (-1) 1).lower_bound ≤
        (Clamp.mk (fun _ _ _ => (2 : ℝ)) (-1) 1).get_value 0 0 0 ∧
      (Clamp.mk (fun _ _ _ => (2 : ℝ)) (-1) 1).get_value 0 0 0 ≤
        (Clamp.mk (fun _ _ _ => (2 : ℝ)) (-1) 1).upper_bound) ∧
      ∀ l u : ℝ, l > u → (Clamp.mk (fun _ _ _ => (2 : ℝ)) (-1) 1).set_bounds l u = none :=
  clamp_get_value_in_bounds (Clamp.mk (fun _ _ _ => (2 : ℝ)) (-1) 1) 0 0 0 (by norm_num)

/-- C1: evaluation of the code at the failing input. Starting from
`RotatePoint::new` (all angles `0`), `set_y_angle(90)` leaves the `y`
angle at `0` and instead overwrites the `x` angle with `90`, and
`set_z_angle(45)` leaves the `z` angle at `0` and overwrites the `x`
angle with `45` — both setters assign `self.angles.0`, contradicting
the claim (and the methods' own documentation). -/
theorem rotate_point_set_y_z_angle_bug :
    ((RotatePoint.new (Constant.get_value 0)).set_y_angle 90).y_angle = 0 ∧
      ((RotatePoint.new (Constant.get_value 0)).set_y_angle 90).x_angle = 90 ∧
      ((RotatePoint.new (Constant.get_value 0)).set_z_angle 45).z_angle = 0 ∧
      ((RotatePoint.new (Constant.get_value 0)).set_z_angle 45).x_angle = 45 :=
  ⟨rfl, rfl, rfl, rfl⟩

/-- C5: the octave-count setters of `Perlin`, `Billow` and `RidgedMulti`
and the forwarded roughness setter of `Turbulence` panic for every
argument outside `[1, 30]` (leaving the state unchanged, modelled by
returning `none`), and for every argument inside `[1, 30]` succeed and
store exactly the argument. -/
theorem octave_count_setter_contract (p : Perlin) (b : Billow) (r : RidgedMulti)
    (t : Turbulence) (n : ℤ) :
    ((n < 1 ∨ 30 < n) →
      p.set_octave_count n = none ∧ b.set_octave_count n = none ∧
        r.set_octave_count n = none ∧ t.set_roughness n = none) ∧
      (1 ≤ n → n ≤ 30 →
        p.set_octave_count n = some { p with octave_count := n } ∧
          b.set_octave_count n = some { b with octave_count := n } ∧
          r.set_octave_count n = some { r with octave_count := n } ∧
          t.set_roughness n = some { t with
            x_distort := { t.x_distort with octave_count := n }
            y_distort := { t.y_distort with octave_count := n }
            z_distort := { t.z_distort with octave_count := n } }) := by
  have hmax : PERLIN_MAX_OCTAVE = 30 := rfl
  constructor
  · intro h
    have hcond : n < 1 ∨ n > PERLIN_MAX_OCTAVE := by rw [hmax]; exact h
    have hp : ∀ q : Perlin, q.set_octave_count n = none := fun q => by
      unfold Perlin.set_octave_count
      exact if_pos hcond
    refine ⟨hp p, ?_, ?_, ?_⟩
    · unfold Billow.set_octave_count
      exact if_pos (by rw [show BILLOW_MAX_OCTAVE = 30 from rfl]; exact h)
    · unfold RidgedMulti.set_octave_count
      exact if_pos (by rw [show RIDGED_MAX_OCTAVE = 30 from rfl]; exact h)
    · unfold Turbulence.set_roughness
      rw [hp t.x_distort]
      rfl
  · intro h1 h2
    have hcond : ¬(n < 1 ∨ n > PERLIN_MAX_OCTAVE) := by
      rw [hmax]
      push_neg
      exact ⟨h1, h2⟩
    have hp : ∀ q : Perlin, q.set_octave_count n = some { q with octave_count := n } :=
      fun q => by
        unfold Perlin.set_octave_count
        exact if_neg hcond
    refine ⟨hp p, ?_, ?_, ?_⟩
    · unfold Billow.set_octave_count
      exact if_neg (by rw [show BILLOW_MAX_OCTAVE = 30 from rfl]; push_neg; exact ⟨h1, h2⟩)
    · unfold RidgedMulti.set_octave_count
      exact if_neg (by rw [show RIDGED_MAX_OCTAVE = 30 from rfl]; push_neg; exact ⟨h1, h2⟩)
    · unfold Turbulence.set_roughness
      rw [hp t.x_distort, hp t.y_distort, hp t.z_distort]
      rfl

/-- Witness for C5: a concrete node of each kind, rejected at `31` and
accepted at `5`. -/
theorem octave_count_setter_contract_witness :
    ((Perlin.mk 1 2 NoiseQuality.standard 6 0 0).set_octave_count 31 = none ∧
        (Billow.mk 1 2 NoiseQuality.standard 6 0 0).set_octave_count 31 = none ∧
        (RidgedMulti.mk 1 2 NoiseQuality.standard 6 0 (fun _ => 0)).set_octave_count 31 = none ∧
        (Turbulence.mk 1 (Constant.get_value 0)
            (Perlin.mk 1 2 NoiseQuality.standard 6 0 0)
            (Perlin.mk 1 2 NoiseQuality.standard 6 0 1)
            (Perlin.mk 1 2 NoiseQuality.standard 6 0 2)).set_roughness 31 = none) ∧
      ((Perlin.mk 1 2 NoiseQuality.standard 6 0 0).set_octave_count 5 =
          some { Perlin.mk 1 2 NoiseQuality.standard 6 0 0 with octave_count := 5 } ∧
        (Billow.mk 1 2 NoiseQuality.standard 6 0 0).set_octave_count 5 =
          some { Billow.mk 1 2 NoiseQuality.standard 6 0 0 with octave_count := 5 } ∧
        (RidgedMulti.mk 1 2 NoiseQuality.standard 6 0 (fun _ => 0)).set_octave_count 5 =
          some { RidgedMulti.mk 1 2 NoiseQuality.standard 6 0 (fun _ => 0) with
            octave_count := 5 } ∧
        (Turbulence.mk 1 (Constant.get_value 0)
            (Perlin.mk 1 2 NoiseQuality.standard 6 0 0)
            (Perlin.mk 1 2 NoiseQuality.standard 6 0 1)
            (Perlin.mk 1 2 NoiseQuality.standard 6 0 2)).set_roughness 5 =
          some { Turbulence.mk 1 (Constant.get_value 0)
              (Perlin.mk 1 2 NoiseQuality.standard 6 0 0)
              (Perlin.mk 1 2 NoiseQuality.standard 6 0 1)
              (Perlin.mk 1 2 NoiseQuality.standard 6 0 2) with
            x_distort := { Perlin.mk 1 2 NoiseQuality.standard 6 0 0 with octave_count := 5 }
            y_distort := { Perlin.mk 1 2 NoiseQuality.standard 6 0 1 with octave_count := 5 }
            z_distort := { Perlin.mk 1 2 NoiseQuality.standard 6 0 2 with
              octave_count := 5 } }) :=
  ⟨(octave_count_setter_contract (Perlin.mk 1 2 NoiseQuality.standard 6 0 0)
      (Billow.mk 1 2 NoiseQuality.standard 6 0 0)
      (RidgedMulti.mk 1 2 NoiseQuality.standard 6 0 (fun _ => 0))
      (Turbulence.mk 1 (Constant.get_value 0)
        (Perlin.mk 1 2 NoiseQuality.standard 6 0 0)
        (Perlin.mk 1 2 NoiseQuality.standard 6 0 1)
        (Perlin.mk 1 2 NoiseQuality.standard 6 0 2)) 31).1 (by norm_num),
    (octave_count_setter_contract (Perlin.mk 1 2 NoiseQuality.standard 6 0 0)
      (Billow.mk 1 2 NoiseQuality.standard 6 0 0)
      (RidgedMulti.mk 1 2 NoiseQuality.standard 6 0 (fun _ => 0))
      (Turbulence.mk 1 (Constant.get_value 0)
        (Perlin.mk 1 2 NoiseQuality.standard 6 0 0)
        (Perlin.mk 1 2 NoiseQuality.standard 6 0 1)
        (Perlin.mk 1 2 NoiseQuality.standard 6 0 2)) 5).2 (by norm_num) (by norm_num)⟩

/-- C6: in every `Select` state reachable from construction via
`set_edge_falloff` and `set_bounds`, the stored falloff is at most half
the bound width. -/
theorem select_falloff_invariant (s : Select) (h : SelectReachable s) :
    s.edge_falloff ≤ (s.upper_bound - s.lower_bound) / 2 := by
  induction h with
  | new_node module1 module2 control =>
      simp only [Select.new, DEFAULT_SELECT_EDGE_FALLOFF, DEFAULT_SELECT_LOWER_BOUND,
        DEFAULT_SELECT_UPPER_BOUND]
      norm_num
  | falloff_step s f hs ih =>
      unfold Select.set_edge_falloff Select.clamp_falloff
      dsimp only
      split_ifs with h1
      · exact le_refl _
      · exact le_of_not_lt h1
  | bounds_step s l u s2 hs heq ih =>
      unfold Select.set_bounds at heq
      split_ifs at heq with h1
      rw [Option.some_inj] at heq
      subst heq
      unfold Select.clamp_falloff
      dsimp only
      split_ifs with h2
      · exact le_refl _
      · exact le_of_not_lt h2

/-- Witness for C6: the invariant applied to a freshly constructed
node. -/
theorem select_falloff_invariant_witness :
    (Select.new (Constant.get_value 0) (Constant.get_value 0)
          (Constant.get_value 0)).edge_falloff ≤
      ((Select.new (Constant.get_value 0) (Constant.get_value 0)
            (Constant.get_value 0)).upper_bound -
          (Select.new (Constant.get_value 0) (Constant.get_value 0)
            (Constant.get_value 0)).lower_bound) / 2 :=
  select_falloff_invariant _
    (SelectReachable.new_node (Constant.get_value 0) (Constant.get_value 0)
      (Constant.get_value 0))

/-- C2: with a positive edge falloff, a control value of exactly
`lower_bound - edge_falloff` yields `module1`'s value, and a control
value of exactly `lower_bound` yields the 50% blend of the two source
values (since `scurve3 (1/2) = 1/2`). -/
theorem select_edge_falloff_boundary_values (s : Select) (x y z : ℝ)
    (hf : 0 < s.edge_falloff) :
    (s.mcontrol x y z = s.lower_bound - s.edge_falloff →
        s.get_value x y z = s.module1 x y z) ∧
      (s.mcontrol x y z = s.lower_bound →
        s.get_value x y z = (s.module1 x y z + s.module2 x y z) / 2) := by
  constructor
  · intro hc
    unfold Select.get_value
    dsimp only
    rw [if_pos hf, if_neg (by rw [hc]; exact lt_irrefl _), if_pos (by rw [hc]; linarith), hc]
    rw [sub_self, zero_div]
    unfold linear_interp scurve3
    ring
  · intro hc
    unfold Select.get_value
    dsimp only
    rw [if_pos hf, if_neg (by rw [hc]; linarith), if_pos (by rw [hc]; linarith), hc]
    have h2 : s.lower_bound - (s.lower_bound - s.edge_falloff) = s.edge_falloff := by ring
    have h3 : s.lower_bound + s.edge_falloff - (s.lower_bound - s.edge_falloff) =
        2 * s.edge_falloff := by ring
    rw [h2, h3]
    have ha : s.edge_falloff / (2 * s.edge_falloff) = 1 / 2 := by
      rw [div_eq_div_iff (by positivity) (by norm_num)]
      ring
    rw [ha]
    unfold linear_interp scurve3
    ring

/-- Witness for C2: two concrete `Select` nodes with falloff `1` and
bounds `[-1, 1]`, one with control value `-2 = lower - falloff`
(returning `module1`'s value) and one with control value `-1 = lower`
(returning the 50% blend). -/
theorem select_edge_falloff_boundary_values_witness :
    (Select.mk (Constant.get_value 3) (Constant.get_value 5) (Constant.get_value (-2))
          1 (-1) 1).get_value 0 0 0 =
        (Select.mk (Constant.get_value 3) (Constant.get_value 5) (Constant.get_value (-2))
          1 (-1) 1).module1 0 0 0 ∧
      (Select.mk (Constant.get_value 3) (Constant.get_value 5) (Constant.get_value (-1))
          1 (-1) 1).get_value 0 0 0 =
        ((Select.mk (Constant.get_value 3) (Constant.get_value 5) (Constant.get_value (-1))
              1 (-1) 1).module1 0 0 0 +
            (Select.mk (Constant.get_value 3) (Constant.get_value 5) (Constant.get_value (-1))
              1 (-1) 1).module2 0 0 0) / 2 :=
  ⟨(select_edge_falloff_boundary_values
      (Select.mk (Constant.get_value 3) (Constant.get_value 5) (Constant.get_value (-2))
        1 (-1) 1) 0 0 0 (by norm_num)).1 (by norm_num [Constant.get_value]),
    (select_edge_falloff_boundary_values
      (Select.mk (Constant.get_value 3) (Constant.get_value 5) (Constant.get_value (-1))
        1 (-1) 1) 0 0 0 (by norm_num)).2 (by norm_num [Constant.get_value])⟩

/-- Helper: list lookup at index `length - 1` is the last element. -/
theorem getD_length_sub_one {α : Type} (l : List α) (d : α) :
    l.getD (l.length - 1) d = l.getLastD d := by
  induction l generalizing d with
  | nil => rfl
  | cons a t ih =>
      cases t with
      | nil => rfl
      | cons b t2 =>
          simp only [List.length_cons, Nat.add_sub_cancel, List.getD_cons_succ] at ih ⊢
          rw [ih]
          rfl

/-- C4: a `Curve` with at least 4 control points and a `Terrace` with at
least 2 control points return exactly the boundary control point's
output when the source value lies strictly below every control point's
input (the smallest one in particular) or strictly above every control
point's input (the largest one in particular) — no extrapolation. -/
theorem curve_terrace_boundary_policy (c : Curve) (t : Terrace) (x y z : ℝ) :
    (4 ≤ c.control_points.length →
      ((∀ p ∈ c.control_points, c.module x y z < p.input_value) →
          c.get_value x y z = some ((c.control_points.headD ⟨0, 0⟩).output_value)) ∧
        ((∀ p ∈ c.control_points, p.input_value < c.module x y z) →
          c.get_value x y z = some ((c.control_points.getLastD ⟨0, 0⟩).output_value))) ∧
      (2 ≤ t.control_points.length →
        ((∀ v ∈ t.control_points, t.module x y z < v) →
            t.get_value x y z = some (t.control_points.headD 0)) ∧
          ((∀ v ∈ t.control_points, v < t.module x y z) →
            t.get_value x y z = some (t.control_points.getLastD 0))) := by
  constructor
  · intro hlen
    have hnotlt : ¬c.control_points.length < 4 := not_lt.mpr hlen
    constructor
    · intro hbelow
      have hcount : Curve.idx_pos c.control_points (c.module x y z) = 0 := by
        unfold Curve.idx_pos
        norm_cast
        rw [List.countP_eq_zero]
        intro p hp
        simp only [decide_eq_true_eq]
        exact not_le.mpr (hbelow p hp)
      unfold Curve.get_value
      rw [if_neg hnotlt]
      dsimp only
      rw [hcount]
      have h1 : clampInt (0 - 1) 0 ((c.control_points.length : ℤ) - 1) = 0 := by
        unfold clampInt
        split_ifs <;> omega
      have h2 : clampInt 0 0 ((c.control_points.length : ℤ) - 1) = 0 := by
        unfold clampInt
        split_ifs <;> omega
      rw [h1, h2, if_pos rfl]
      cases hc : c.control_points with
      | nil => rw [hc] at hlen; simp at hlen
      | cons p rest => simp
    · intro habove
      have hcount : Curve.idx_pos c.control_points (c.module x y z) =
          (c.control_points.length : ℤ) := by
        unfold Curve.idx_pos
        norm_cast
        rw [List.countP_eq_length]
        intro p hp
        simp only [decide_eq_true_eq]
        exact le_of_lt (habove p hp)
      unfold Curve.get_value
      rw [if_neg hnotlt]
      dsimp only
      rw [hcount]
      have h1 : clampInt ((c.control_points.length : ℤ) - 1) 0
          ((c.control_points.length : ℤ) - 1) = (c.control_points.length : ℤ) - 1 := by
        unfold clampInt
        split_ifs <;> omega
      have h2 : clampInt (c.control_points.length : ℤ) 0
          ((c.control_points.length : ℤ) - 1) = (c.control_points.length : ℤ) - 1 := by
        unfold clampInt
        split_ifs <;> omega
      rw [h1, h2, if_pos rfl]
      have ht : ((c.control_points.length : ℤ) - 1).toNat = c.control_points.length - 1 := by
        omega
      rw [ht, getD_length_sub_one]
  · intro hlen
    have hnotlt : ¬t.control_points.length < 2 := not_lt.mpr hlen
    constructor
    · intro hbelow
      have hcount : Terrace.idx_pos t.control_points (t.module x y z) = 0 := by
        unfold Terrace.idx_pos
        norm_cast
        rw [List.countP_eq_zero]
        intro v hv
        simp only [decide_eq_true_eq]
        exact not_le.mpr (hbelow v hv)
      unfold Terrace.get_value
      rw [if_neg hnotlt]
      dsimp only
      rw [hcount]
      have h1 : clampInt (0 - 1) 0 ((t.control_points.length : ℤ) - 1) = 0 := by
        unfold clampInt
        split_ifs <;> omega
      have h2 : clampInt 0 0 ((t.control_points.length : ℤ) - 1) = 0 := by
        unfold clampInt
        split_ifs <;> omega
      rw [h1, h2, if_pos rfl]
      cases ht : t.control_points with
      | nil => rw [ht] at hlen; simp at hlen
      | cons v rest => simp
    · intro habove
      have hcount : Terrace.idx_pos t.control_points (t.module x y z) =
          (t.control_points.length : ℤ) := by
        unfold Terrace.idx_pos
        norm_cast
        rw [List.countP_eq_length]
        intro v hv
        simp only [decide_eq_true_eq]
        exact le_of_lt (habove v hv)
      unfold Terrace.get_value
      rw [if_neg hnotlt]
      dsimp only
      rw [hcount]
      have h1 : clampInt ((t.control_points.length : ℤ) - 1) 0
          ((t.control_points.length : ℤ) - 1) = (t.control_points.length : ℤ) - 1 := by
        unfold clampInt
        split_ifs <;> omega
      have h2 : clampInt (t.control_points.length : ℤ) 0
          ((t.control_points.length : ℤ) - 1) = (t.control_points.length : ℤ) - 1 := by
        unfold clampInt
        split_ifs <;> omega
      rw [h1, h2, if_pos rfl]
      have htn : ((t.control_points.length : ℤ) - 1).toNat = t.control_points.length - 1 := by
        omega
      rw [htn, getD_length_sub_one]

/-- Witness for C4: a concrete 4-point curve and 2-point terrace sampled
below (source `-5`) and above (source `99`) the control range. -/
theorem curve_terrace_boundary_policy_witness :
    (Curve.mk (Constant.get_value (-5)) [⟨0, 10⟩, ⟨1, 11⟩, ⟨2, 12⟩, ⟨3, 13⟩]).get_value 0 0 0 =
        some (((Curve.mk (Constant.get_value (-5))
            [⟨0, 10⟩, ⟨1, 11⟩, ⟨2, 12⟩, ⟨3, 13⟩]).control_points.headD ⟨0, 0⟩).output_value) ∧
      (Curve.mk (Constant.get_value 99) [⟨0, 10⟩, ⟨1, 11⟩, ⟨2, 12⟩, ⟨3, 13⟩]).get_value 0 0 0 =
        some (((Curve.mk (Constant.get_value 99)
            [⟨0, 10⟩, ⟨1, 11⟩, ⟨2, 12⟩, ⟨3, 13⟩]).control_points.getLastD ⟨0, 0⟩).output_value) ∧
      (Terrace.mk (Constant.get_value (-5)) false [0, 1]).get_value 0 0 0 =
        some ((Terrace.mk (Constant.get_value (-5)) false [0, 1]).control_points.headD 0) ∧
      (Terrace.mk (Constant.get_value 99) false [0, 1]).get_value 0 0 0 =
        some ((Terrace.mk (Constant.get_value 99) false [0, 1]).control_points.getLastD 0) :=
  ⟨((curve_terrace_boundary_policy
        (Curve.mk (Constant.get_value (-5)) [⟨0, 10⟩, ⟨1, 11⟩, ⟨2, 12⟩, ⟨3, 13⟩])
        (Terrace.mk (Constant.get_value (-5)) false [0, 1]) 0 0 0).1 (by norm_num)).1
      (by
        intro p hp
        simp only [List.mem_cons, List.not_mem_nil, or_false] at hp
        rcases hp with h | h | h | h <;> subst h <;> norm_num [Constant.get_value]),
    ((curve_terrace_boundary_policy
        (Curve.mk (Constant.get_value 99) [⟨0, 10⟩, ⟨1, 11⟩, ⟨2, 12⟩, ⟨3, 13⟩])
        (Terrace.mk (Constant.get_value (-5)) false [0, 1]) 0 0 0).1 (by norm_num)).2
      (by
        intro p hp
        simp only [List.mem_cons, List.not_mem_nil, or_false] at hp
        rcases hp with h | h | h | h <;> subst h <;> norm_num [Constant.get_value]),
    ((curve_terrace_boundary_policy
        (Curve.mk (Constant.get_value (-5)) [⟨0, 10⟩, ⟨1, 11⟩, ⟨2, 12⟩, ⟨3, 13⟩])
        (Terrace.mk (Constant.get_value (-5)) false [0, 1]) 0 0 0).2 (by norm_num)).1
      (by
        intro v hv
        simp only [List.mem_cons, List.not_mem_nil, or_false] at hv
        rcases hv with h | h <;> subst h <;> norm_num [Constant.get_value]),
    ((curve_terrace_boundary_policy
        (Curve.mk (Constant.get_value (-5)) [⟨0, 10⟩, ⟨1, 11⟩, ⟨2, 12⟩, ⟨3, 13⟩])
        (Terrace.mk (Constant.get_value 99) false [0, 1]) 0 0 0).2 (by norm_num)).2
      (by
        intro v hv
        simp only [List.mem_cons, List.not_mem_nil, or_false] at hv
        rcases hv with h | h <;> subst h <;> norm_num [Constant.get_value])⟩

/-- Helper: the recorded distance of a cell's seed point is the squared
distance from the sample to the recorded position. -/
theorem voronoiCellPoint_fst {α : Type} [LinearOrderedCommRing α]
    (noise : ℤ → ℤ → ℤ → ℤ → α) (seed : ℤ) (x y z : α) (cell : ℤ × ℤ × ℤ) :
    (voronoiCellPoint noise seed x y z cell).1 =
      distTo x y z (voronoiCellPoint noise seed x y z cell).2 :=
  rfl

/-- Helper: folding the search step preserves the invariant that the
tracked minimum equals the squared distance to the tracked candidate. -/
theorem voronoiFold_fst_eq_distTo {α : Type} [LinearOrderedCommRing α]
    (noise : ℤ → ℤ → ℤ → ℤ → α) (seed : ℤ) (x y z : α)
    (cells : List (ℤ × ℤ × ℤ)) (st : α × α × α × α)
    (h : st.1 = distTo x y z st.2) :
    (cells.foldl (voronoiStep noise seed x y z) st).1 =
      distTo x y z (cells.foldl (voronoiStep noise seed x y z) st).2 := by
  induction cells generalizing st with
  | nil => exact h
  | cons c rest ih =>
      rw [List.foldl_cons]
      apply ih
      unfold voronoiStep
      dsimp only
      split_ifs with hlt
      · rfl
      · exact h

/-- Helper: membership in the 5×5×5 window bounds each cell coordinate
within two of the centre cell. -/
theorem voronoiCells_mem_bounds (xi yi zi : ℤ) (c : ℤ × ℤ × ℤ)
    (h : c ∈ voronoiCells xi yi zi) :
    (xi - 2 ≤ c.1 ∧ c.1 ≤ xi + 2) ∧ (yi - 2 ≤ c.2.1 ∧ c.2.1 ≤ yi + 2) ∧
      (zi - 2 ≤ c.2.2 ∧ c.2.2 ≤ zi + 2) := by
  simp only [voronoiCells, List.mem_flatMap, List.mem_map, List.mem_range, List.pure_def,
    List.bind_eq_flatMap, List.mem_singleton] at h
  obtain ⟨dz, hdz, dy, hdy, dx, ⟨dxn, hdxn, hcast⟩, heq⟩ := h
  subst hcast
  subst heq
  dsimp only
  omega

/-- Helper: the search window is never empty. -/
theorem voronoiCells_ne_nil (xi yi zi : ℤ) : voronoiCells xi yi zi ≠ [] := by
  intro h
  have hlen : (voronoiCells xi yi zi).length = 125 := rfl
  rw [h] at hlen
  simp at hlen

/-- Helper: the defaulted head of a nonempty list is a member. -/
theorem headD_mem {α : Type} (l : List α) (d : α) (h : l ≠ []) : l.headD d ∈ l := by
  cases l with
  | nil => exact absurd rfl h
  | cons a t => exact List.mem_cons_self a t

/-- Helper: the spec-side search is the fold over the window's tail
started from the seed point of the window's first cell. -/
theorem voronoiSpecSearch_eq_foldl {α : Type} [LinearOrderedCommRing α]
    (noise : ℤ → ℤ → ℤ → ℤ → α) (seed : ℤ) (x y z : α) (xi yi zi : ℤ) :
    voronoiSpecSearch noise seed x y z xi yi zi =
      (voronoiCells xi yi zi).tail.foldl (voronoiStep noise seed x y z)
        (voronoiCellPoint noise seed x y z ((voronoiCells xi yi zi).headD (0, 0, 0))) := by
  unfold voronoiSpecSearch
  cases hc : voronoiCells xi yi zi with
  | nil => exact absurd hc (voronoiCells_ne_nil xi yi zi)
  | cons c rest => simp

/-- Helper: when the window's first seed point is strictly closer than
the sentinel distance `2147483647`, the code's sentinel-initialised
search coincides with the spec's sentinel-free minimum. -/
theorem voronoiSearch_eq_specSearch {α : Type} [LinearOrderedCommRing α]
    (noise : ℤ → ℤ → ℤ → ℤ → α) (seed : ℤ) (x y z : α) (xi yi zi : ℤ)
    (h : (voronoiCellPoint noise seed x y z
        ((voronoiCells xi yi zi).headD (0, 0, 0))).1 < 2147483647) :
    voronoiSearch noise seed x y z xi yi zi =
      voronoiSpecSearch noise seed x y z xi yi zi := by
  rw [voronoiSpecSearch_eq_foldl]
  unfold voronoiSearch
  cases hc : voronoiCells xi yi zi with
  | nil => exact absurd hc (voronoiCells_ne_nil xi yi zi)
  | cons c rest =>
      rw [hc] at h
      simp only [List.headD_cons] at h
      simp only [List.tail_cons, List.headD_cons]
      rw [List.foldl_cons]
      congr 1
      unfold voronoiStep
      dsimp only
      rw [if_pos h]

/-- Helper: the truncation-located centre cell is within one unit of the
coordinate it is computed from. -/
theorem cellIndex_abs_le (w : ℝ) :
    |w - (((if w > 0 then ⌊w⌋ else ⌈w - 1⌉) : ℤ) : ℝ)| ≤ 1 := by
  split_ifs with h
  · rw [abs_le]
    constructor <;> linarith [Int.floor_le w, Int.lt_floor_add_one w]
  · have h1 : (w - 1 : ℝ) ≤ ((⌈w - 1⌉ : ℤ) : ℝ) := Int.le_ceil _
    have h2 : ((⌈w - 1⌉ : ℤ) : ℝ) < (w - 1) + 1 := Int.ceil_lt_add_one _
    rw [abs_le]
    constructor <;> linarith

/-- Helper: with `[-1, 1]`-valued noise and a centre cell within one unit
of each sample coordinate, every cell of the window has its seed point
within squared distance 48 of the sample — far below the sentinel. -/
theorem voronoiCellPoint_fst_lt (noise : ℤ → ℤ → ℤ → ℤ → ℝ)
    (hnoise : ∀ a b c s, |noise a b c s| ≤ 1) (seed : ℤ) (x y z : ℝ) (xi yi zi : ℤ)
    (hx : |x - (xi : ℝ)| ≤ 1) (hy : |y - (yi : ℝ)| ≤ 1) (hz : |z - (zi : ℝ)| ≤ 1)
    (cell : ℤ × ℤ × ℤ) (hcell : cell ∈ voronoiCells xi yi zi) :
    (voronoiCellPoint noise seed x y z cell).1 < 2147483647 := by
  obtain ⟨⟨hx1, hx2⟩, ⟨hy1, hy2⟩, hz1, hz2⟩ := voronoiCells_mem_bounds xi yi zi cell hcell
  have hb : ∀ (ci wi : ℤ) (w n : ℝ), |n| ≤ 1 → |w - (wi : ℝ)| ≤ 1 → wi - 2 ≤ ci →
      ci ≤ wi + 2 → ((ci : ℝ) + n - w) * ((ci : ℝ) + n - w) ≤ 16 := by
    intro ci wi w n hn hw h1 h2
    have h1r : (wi : ℝ) - 2 ≤ (ci : ℝ) := by exact_mod_cast h1
    have h2r : (ci : ℝ) ≤ (wi : ℝ) + 2 := by exact_mod_cast h2
    have hn' := abs_le.mp hn
    have hw' := abs_le.mp hw
    have ha1 : (ci : ℝ) + n - w ≤ 4 := by linarith [hn'.2, hw'.1]
    have ha2 : -4 ≤ (ci : ℝ) + n - w := by linarith [hn'.1, hw'.2]
    nlinarith [mul_nonneg (by linarith : (0 : ℝ) ≤ 4 - ((ci : ℝ) + n - w))
      (by linarith : (0 : ℝ) ≤ ((ci : ℝ) + n - w) + 4)]
  have b1 := hb cell.1 xi x (noise cell.1 cell.2.1 cell.2.2 seed) (hnoise _ _ _ _) hx hx1 hx2
  have b2 := hb cell.2.1 yi y (noise cell.1 cell.2.1 cell.2.2 (seed + 1))
    (hnoise _ _ _ _) hy hy1 hy2
  have b3 := hb cell.2.2 zi z (noise cell.1 cell.2.1 cell.2.2 (seed + 2))
    (hnoise _ _ _ _) hz hz1 hz2
  unfold voronoiCellPoint
  dsimp only
  linarith

/-- Helper: the cell seed point commutes with the embedding of an
integer-valued noise into the reals. -/
theorem voronoiCellPoint_cast (noise : ℤ → ℤ → ℤ → ℤ → ℤ) (seed : ℤ) (x y z : ℤ)
    (cell : ℤ × ℤ × ℤ) :
    voronoiCellPoint (fun a b c s => ((noise a b c s : ℤ) : ℝ)) seed
        (x : ℝ) (y : ℝ) (z : ℝ) cell =
      castState (voronoiCellPoint noise seed x y z cell) := by
  unfold voronoiCellPoint castState
  dsimp only
  simp only [Prod.mk.injEq]
  refine ⟨?_, ?_, ?_, ?_⟩ <;> (push_cast; ring)

/-- Helper: the search step commutes with the embedding of an
integer-valued noise into the reals. -/
theorem voronoiStep_cast (noise : ℤ → ℤ → ℤ → ℤ → ℤ) (seed : ℤ) (x y z : ℤ)
    (st : ℤ × ℤ × ℤ × ℤ) (cell : ℤ × ℤ × ℤ) :
    voronoiStep (fun a b c s => ((noise a b c s : ℤ) : ℝ)) seed
        (x : ℝ) (y : ℝ) (z : ℝ) (castState st) cell =
      castState (voronoiStep noise seed x y z st cell) := by
  unfold voronoiStep
  dsimp only
  rw [voronoiCellPoint_cast, apply_ite castState]
  unfold castState
  dsimp only
  simp only [Int.cast_lt]

/-- Helper: the whole search fold commutes with the embedding of an
integer-valued noise into the reals. -/
theorem voronoiFold_cast (noise : ℤ → ℤ → ℤ → ℤ → ℤ) (seed : ℤ) (x y z : ℤ)
    (cells : List (ℤ × ℤ × ℤ)) (st : ℤ × ℤ × ℤ × ℤ) :
    cells.foldl (voronoiStep (fun a b c s => ((noise a b c s : ℤ) : ℝ)) seed
        (x : ℝ) (y : ℝ) (z : ℝ)) (castState st) =
      castState (cells.foldl (voronoiStep noise seed x y z) st) := by
  induction cells generalizing st with
  | nil => rfl
  | cons c rest ih =>
      rw [List.foldl_cons, List.foldl_cons, voronoiStep_cast, ih]

/-- Helper: the sentinel-initialised search commutes with the embedding
of an integer-valued noise into the reals. -/
theorem voronoiSearch_cast (noise : ℤ → ℤ → ℤ → ℤ → ℤ) (seed : ℤ) (x y z : ℤ)
    (xi yi zi : ℤ) :
    voronoiSearch (fun a b c s => ((noise a b c s : ℤ) : ℝ)) seed
        (x : ℝ) (y : ℝ) (z : ℝ) xi yi zi =
      castState (voronoiSearch noise seed x y z xi yi zi) := by
  unfold voronoiSearch
  rw [show ((2147483647 : ℝ), (0 : ℝ), (0 : ℝ), (0 : ℝ)) = castState (2147483647, 0, 0, 0)
    from by unfold castState; norm_num]
  exact voronoiFold_cast noise seed x y z _ _

/-- Helper: the spec-side search commutes with the embedding of an
integer-valued noise into the reals. -/
theorem voronoiSpecSearch_cast (noise : ℤ → ℤ → ℤ → ℤ → ℤ) (seed : ℤ) (x y z : ℤ)
    (xi yi zi : ℤ) :
    voronoiSpecSearch (fun a b c s => ((noise a b c s : ℤ) : ℝ)) seed
        (x : ℝ) (y : ℝ) (z : ℝ) xi yi zi =
      castState (voronoiSpecSearch noise seed x y z xi yi zi) := by
  rw [voronoiSpecSearch_eq_foldl, voronoiSpecSearch_eq_foldl, voronoiCellPoint_cast]
  exact voronoiFold_cast noise seed x y z _ _

/-- C3 (amended): for `[-1, 1]`-valued value noise, `Voronoi::get_value`
is exactly the spec's 5×5×5 minimum-seed-point search and output
formula, with the centre cell located by the source's truncation rule —
the containing cell except at non-positive integer scaled coordinates,
where the cell below is used. -/
theorem voronoi_get_value_eq_spec_amended (v : Voronoi) (noise : ℤ → ℤ → ℤ → ℤ → ℝ)
    (hnoise : ∀ a b c s, |noise a b c s| ≤ 1) (x y z : ℝ) :
    v.get_value noise x y z =
      voronoiSpecValueAmended v.displacement v.enable_distance v.frequency v.seed
        noise x y z := by
  unfold Voronoi.get_value voronoiSpecValueAmended
  dsimp only
  set wx := x * v.frequency with hwx
  set wy := y * v.frequency with hwy
  set wz := z * v.frequency with hwz
  set xi := (if wx > 0 then ⌊wx⌋ else ⌈wx - 1⌉) with hxi
  set yi := (if wy > 0 then ⌊wy⌋ else ⌈wy - 1⌉) with hyi
  set zi := (if wz > 0 then ⌊wz⌋ else ⌈wz - 1⌉) with hzi
  have hxa : |wx - (xi : ℝ)| ≤ 1 := by rw [hxi]; exact cellIndex_abs_le wx
  have hya : |wy - (yi : ℝ)| ≤ 1 := by rw [hyi]; exact cellIndex_abs_le wy
  have hza : |wz - (zi : ℝ)| ≤ 1 := by rw [hzi]; exact cellIndex_abs_le wz
  have hsearch : voronoiSearch noise v.seed wx wy wz xi yi zi =
      voronoiSpecSearch noise v.seed wx wy wz xi yi zi :=
    voronoiSearch_eq_specSearch noise v.seed wx wy wz xi yi zi
      (voronoiCellPoint_fst_lt noise hnoise v.seed wx wy wz xi yi zi hxa hya hza _
        (headD_mem _ _ (voronoiCells_ne_nil xi yi zi)))
  rw [hsearch]
  have hinv : (voronoiSpecSearch noise v.seed wx wy wz xi yi zi).1 =
      distTo wx wy wz (voronoiSpecSearch noise v.seed wx wy wz xi yi zi).2 := by
    rw [voronoiSpecSearch_eq_foldl]
    exact voronoiFold_fst_eq_distTo noise v.seed wx wy wz _ _ rfl
  rw [hinv]

/-- Witness for the amended C3 at a concrete node, noise assignment and
coordinate. -/
theorem voronoi_get_value_eq_spec_amended_witness :
    (Voronoi.mk 0 true 1 0).get_value exNoiseR 0 0 0 =
      voronoiSpecValueAmended 0 true 1 0 exNoiseR 0 0 0 :=
  voronoi_get_value_eq_spec_amended (Voronoi.mk 0 true 1 0) exNoiseR
    (by
      intro a b c s
      unfold exNoiseR exNoise
      split_ifs <;> norm_num)
    0 0 0

set_option maxRecDepth 10000 in
/-- C3 counterexample: at the origin (a non-positive integer coordinate)
with the `[-1, 1]`-valued noise `exNoiseR`, the code centres its search
window on cell `-1` per axis (excluding cell `(2, 0, 0)`, whose seed
point is nearest) while the claim's "cell containing the point" is cell
`0`; the code returns `2` where the claim's description returns
`sqrt 3 - 1`. -/
theorem voronoi_spec_cell_location_counterexample :
    (Voronoi.mk 0 true 1 0).get_value exNoiseR 0 0 0 ≠
      voronoiSpecValue 0 true 1 0 exNoiseR 0 0 0 := by
  have hsearchL : voronoiSearch exNoiseR 0 ((0 : ℤ) : ℝ) ((0 : ℤ) : ℝ) ((0 : ℤ) : ℝ)
      (-1) (-1) (-1) = castState (3, 1, 1, 1) := by
    have hdec : voronoiSearch exNoise 0 0 0 0 (-1) (-1) (-1) = (3, 1, 1, 1) := by decide
    have hc := voronoiSearch_cast exNoise 0 0 0 0 (-1) (-1) (-1)
    rw [hdec] at hc
    exact hc
  have hsearchR : voronoiSpecSearch exNoiseR 0 ((0 : ℤ) : ℝ) ((0 : ℤ) : ℝ) ((0 : ℤ) : ℝ)
      0 0 0 = castState (1, 1, 0, 0) := by
    have hdec : voronoiSpecSearch exNoise 0 0 0 0 0 0 0 = (1, 1, 0, 0) := by decide
    have hc := voronoiSpecSearch_cast exNoise 0 0 0 0 0 0 0
    rw [hdec] at hc
    exact hc
  have hL : (Voronoi.mk 0 true 1 0).get_value exNoiseR 0 0 0 = 2 := by
    unfold Voronoi.get_value
    dsimp only
    rw [show (0 : ℝ) * 1 = ((0 : ℤ) : ℝ) by norm_num]
    rw [show (if ((0 : ℤ) : ℝ) > 0 then ⌊((0 : ℤ) : ℝ)⌋ else ⌈((0 : ℤ) : ℝ) - 1⌉) = (-1 : ℤ)
      from by
        rw [if_neg (by norm_num)]
        rw [show ((0 : ℤ) : ℝ) - 1 = ((-1 : ℤ) : ℝ) by norm_num, Int.ceil_intCast]]
    rw [hsearchL]
    unfold castState
    dsimp only
    rw [if_pos rfl]
    rw [show distTo ((0 : ℤ) : ℝ) ((0 : ℤ) : ℝ) ((0 : ℤ) : ℝ)
        (((1 : ℤ) : ℝ), ((1 : ℤ) : ℝ), ((1 : ℤ) : ℝ)) = 3 from by
      unfold distTo
      push_cast
      ring]
    rw [Real.mul_self_sqrt (by norm_num : (0 : ℝ) ≤ 3)]
    norm_num
  have hR : voronoiSpecValue 0 true 1 0 exNoiseR 0 0 0 = Real.sqrt 3 - 1 := by
    unfold voronoiSpecValue
    dsimp only
    rw [show (0 : ℝ) * 1 = ((0 : ℤ) : ℝ) by norm_num]
    rw [Int.floor_intCast]
    rw [hsearchR]
    unfold castState
    dsimp only
    rw [if_pos rfl]
    norm_num
  rw [hL, hR]
  intro h
  have h3 : Real.sqrt 3 = 3 := by linarith
  have h9 := Real.sq_sqrt (show (0 : ℝ) ≤ 3 by norm_num)
  rw [h3] at h9
  norm_num at h9

end Libnoise
